import Mathlib

/-!
# Verification of the qubic portfolio tracker core

A shallow embedding, in Lean 4, of the resilient fetch layer (QubicAPI:
fetchWithRetry with its request cache and retry loop, getTransactions) and of
the analytics engine (AdvancedAnalytics: diversity score, concentration risk,
transaction patterns, asset performance, network activity, insights and the
balance timeline reconstruction), together with theorems settling the frozen
claims about them.

Modelling conventions, used consistently below:
* JavaScript numbers are modelled exactly: integer quantities as Nat or Int,
  fractional arithmetic (shares, frequencies, percentages) as Rat.
  Math.round is Mathlib round (round half towards positive infinity),
  matching the JS semantics on the values that occur here.
* JS Array.prototype.sort with a numeric comparator is a stable sort; it is
  modelled with a stable insertion sort (sortDescBy / sortAscBy below).
* A JS Map is modelled as an association list where set prepends and lookup
  takes the first hit; a plain object used as a counter table is modelled as
  an association list in insertion order.
* Missing upstream JSON fields are modelled with Option; the JS falsy check
  on a string field is modelled as comparison with the empty string.
* Wall-clock timestamps (Date.now) are explicit Int parameters, in
  milliseconds; toLocaleDateString is modelled by the UTC day index
  (floor of ms / 86400000).
* async/await and the actual network are erased: an operation passed to the
  fetch layer is a function from the attempt index to an Except result, and
  the number of times the code would invoke it is returned as an explicit
  attempts counter, together with the list of backoff delays slept.
-/

/-! ## Generic stable sorting (model of stable Array.prototype.sort) -/

/-- Insert x into a list that is descending with respect to the key f,
keeping x before the first element whose key is not larger, so that an
earlier-listed element wins ties (stability). -/
def insertDescBy {α : Type} (f : α → Nat) (x : α) : List α → List α
  | [] => [x]
  | y :: ys => if f y ≤ f x then x :: y :: ys else y :: insertDescBy f x ys

/-- Stable insertion sort, descending by the key f. -/
def sortDescBy {α : Type} (f : α → Nat) : List α → List α
  | [] => []
  | x :: xs => insertDescBy f x (sortDescBy f xs)

/-- Insert x into a list that is ascending with respect to the key f,
keeping x before the first element whose key is not smaller (stability). -/
def insertAscBy {α : Type} (f : α → Nat) (x : α) : List α → List α
  | [] => [x]
  | y :: ys => if f x ≤ f y then x :: y :: ys else y :: insertAscBy f x ys

/-- Stable insertion sort, ascending by the key f. -/
def sortAscBy {α : Type} (f : α → Nat) : List α → List α
  | [] => []
  | x :: xs => insertAscBy f x (sortAscBy f xs)

theorem perm_insertDescBy {α : Type} (f : α → Nat) (x : α) (l : List α) :
    (insertDescBy f x l).Perm (x :: l) := by
  induction l with
  | nil => simp [insertDescBy]
  | cons y ys ih =>
    by_cases h : f y ≤ f x
    · simp [insertDescBy, h]
    · simp only [insertDescBy, if_neg h]
      exact (ih.cons y).trans (List.Perm.swap x y ys)

theorem perm_sortDescBy {α : Type} (f : α → Nat) (l : List α) :
    (sortDescBy f l).Perm l := by
  induction l with
  | nil => simp [sortDescBy]
  | cons x xs ih =>
    exact (perm_insertDescBy f x (sortDescBy f xs)).trans (ih.cons x)

theorem mem_insertDescBy {α : Type} (f : α → Nat) (x : α) (l : List α) (z : α) :
    z ∈ insertDescBy f x l ↔ z = x ∨ z ∈ l := by
  have h := (perm_insertDescBy f x l).mem_iff (a := z)
  simpa using h

theorem pairwise_insertDescBy {α : Type} (f : α → Nat) (x : α) (l : List α)
    (h : l.Pairwise (fun a b => f b ≤ f a)) :
    (insertDescBy f x l).Pairwise (fun a b => f b ≤ f a) := by
  induction l with
  | nil => simp [insertDescBy]
  | cons y ys ih =>
    rcases List.pairwise_cons.mp h with ⟨hy, hys⟩
    by_cases hxy : f y ≤ f x
    · simp only [insertDescBy, if_pos hxy]
      refine List.pairwise_cons.mpr ⟨?_, h⟩
      intro z hz
      rcases List.mem_cons.mp hz with hz | hz
      · subst hz; exact hxy
      · exact le_trans (hy z hz) hxy
    · simp only [insertDescBy, if_neg hxy]
      refine List.pairwise_cons.mpr ⟨?_, ih hys⟩
      intro z hz
      rcases (mem_insertDescBy f x ys z).mp hz with hz | hz
      · subst hz; omega
      · exact hy z hz

theorem pairwise_sortDescBy {α : Type} (f : α → Nat) (l : List α) :
    (sortDescBy f l).Pairwise (fun a b => f b ≤ f a) := by
  induction l with
  | nil => simp [sortDescBy]
  | cons x xs ih => exact pairwise_insertDescBy f x _ ih

theorem perm_insertAscBy {α : Type} (f : α → Nat) (x : α) (l : List α) :
    (insertAscBy f x l).Perm (x :: l) := by
  induction l with
  | nil => simp [insertAscBy]
  | cons y ys ih =>
    by_cases h : f x ≤ f y
    · simp [insertAscBy, h]
    · simp only [insertAscBy, if_neg h]
      exact (ih.cons y).trans (List.Perm.swap x y ys)

theorem perm_sortAscBy {α : Type} (f : α → Nat) (l : List α) :
    (sortAscBy f l).Perm l := by
  induction l with
  | nil => simp [sortAscBy]
  | cons x xs ih =>
    exact (perm_insertAscBy f x (sortAscBy f xs)).trans (ih.cons x)

theorem mem_insertAscBy {α : Type} (f : α → Nat) (x : α) (l : List α) (z : α) :
    z ∈ insertAscBy f x l ↔ z = x ∨ z ∈ l := by
  have h := (perm_insertAscBy f x l).mem_iff (a := z)
  simpa using h

theorem pairwise_insertAscBy {α : Type} (f : α → Nat) (x : α) (l : List α)
    (h : l.Pairwise (fun a b => f a ≤ f b)) :
    (insertAscBy f x l).Pairwise (fun a b => f a ≤ f b) := by
  induction l with
  | nil => simp [insertAscBy]
  | cons y ys ih =>
    rcases List.pairwise_cons.mp h with ⟨hy, hys⟩
    by_cases hxy : f x ≤ f y
    · simp only [insertAscBy, if_pos hxy]
      refine List.pairwise_cons.mpr ⟨?_, h⟩
      intro z hz
      rcases List.mem_cons.mp hz with hz | hz
      · subst hz; exact hxy
      · exact le_trans hxy (hy z hz)
    · simp only [insertAscBy, if_neg hxy]
      refine List.pairwise_cons.mpr ⟨?_, ih hys⟩
      intro z hz
      rcases (mem_insertAscBy f x ys z).mp hz with hz | hz
      · subst hz; omega
      · exact hy z hz

theorem pairwise_sortAscBy {α : Type} (f : α → Nat) (l : List α) :
    (sortAscBy f l).Pairwise (fun a b => f a ≤ f b) := by
  induction l with
  | nil => simp [sortAscBy]
  | cons x xs ih => exact pairwise_insertAscBy f x _ ih

theorem sortDescBy_eq_nil_iff {α : Type} (f : α → Nat) (l : List α) :
    sortDescBy f l = [] ↔ l = [] := by
  constructor
  · intro h
    have p := perm_sortDescBy f l
    rw [h] at p
    exact p.symm.eq_nil
  · intro h; subst h; rfl

theorem sortAscBy_eq_nil_iff {α : Type} (f : α → Nat) (l : List α) :
    sortAscBy f l = [] ↔ l = [] := by
  constructor
  · intro h
    have p := perm_sortAscBy f l
    rw [h] at p
    exact p.symm.eq_nil
  · intro h; subst h; rfl

/-! ## Data model (section 3 of the spec, as realized by the source) -/

/-- Direction of a transaction relative to the tracked identifier
(the type field of the objects built by QubicAPI.getTransactions). -/
inductive TxType
  | incoming
  | outgoing
deriving DecidableEq, Repr

/-- An asset holding as produced by QubicAPI.getAssets: a ticker name and a
unit amount (parseInt of numberOfUnits, a non-negative integer). -/
structure Asset where
  name : String
  amount : Nat
deriving DecidableEq, Repr

/-- A transaction as produced by QubicAPI.getTransactions. -/
structure Transaction where
  id : String
  sourceId : String
  destId : String
  amount : Int
  tick : Nat
  timestamp : String
  type : TxType
  moneyFlew : Bool
deriving DecidableEq, Repr

/-! ## QubicAPI: request cache and fetchWithRetry -/

/-- Constructor constant: this.cacheTimeout (30 seconds, in ms). -/
def cacheTimeout : Int := 30000

/-- Constructor constant: this.retryAttempts. -/
def retryAttempts : Nat := 3

/-- Constructor constant: this.retryDelay (1 second, in ms). -/
def retryDelay : Nat := 1000

/-- The request cache this.cache: a JS Map from the cache key to
(data, timestamp).  Map.set is modelled by prepending, Map.get by the
first matching entry. -/
def Cache (A : Type) : Type := List (String × A × Int)

/-- this.cache.get(key). -/
def cacheLookup {A : Type} (cache : Cache A) (key : String) : Option (A × Int) :=
  match cache with
  | [] => none
  | (k, v, t) :: rest => if k = key then some (v, t) else cacheLookup rest key

/-- this.cache.set(key, { data, timestamp }). -/
def cacheSet {A : Type} (cache : Cache A) (key : String) (v : A) (t : Int) : Cache A :=
  (key, v, t) :: cache

/-- The cache check at the top of fetchWithRetry: the stored data when an
entry exists and Date.now() - cached.timestamp < this.cacheTimeout,
otherwise none (a stale entry is ignored, not evicted). -/
def cachedFresh {A : Type} (cache : Cache A) (key : String) (now : Int) : Option A :=
  match cacheLookup cache key with
  | some (data, ts) => if now - ts < cacheTimeout then some data else none
  | none => none

deriving instance DecidableEq for Except

/-- Observable outcome of the retry loop of fetchWithRetry: the final result,
how many times the operation was invoked, and the backoff delays slept (ms,
in order). -/
structure LoopOut (E A : Type) where
  result : Except E A
  attempts : Nat
  delays : List Nat
deriving DecidableEq, Repr

/-- The for-loop of fetchWithRetry.  The operation is a function from the
0-based attempt index i to its outcome; r is the number of attempts remaining
AFTER the current one (so the loop body at index i with r = 0 is the last
attempt: on failure its error becomes lastError and is thrown).  After a
failure that is not the last attempt the code sleeps retryDelay * (i + 1). -/
def fetchLoop {E A : Type} (op : Nat → Except E A) : Nat → Nat → LoopOut E A
  | i, 0 => { result := op i, attempts := 1, delays := [] }
  | i, r + 1 =>
    match op i with
    | Except.ok v => { result := Except.ok v, attempts := 1, delays := [] }
    | Except.error _ =>
      let rest := fetchLoop op (i + 1) r
      { result := rest.result, attempts := rest.attempts + 1,
        delays := retryDelay * (i + 1) :: rest.delays }

/-- The cache-miss path of fetchWithRetry: run the retry loop from attempt 0;
a successful result is stored in the cache with the current timestamp, a
failure leaves the cache untouched. -/
def fetchMiss {E A : Type} (op : Nat → Except E A) (key : String) (now : Int)
    (cache : Cache A) : LoopOut E A × Cache A :=
  let out := fetchLoop op 0 (retryAttempts - 1)
  match out.result with
  | Except.ok v => (out, cacheSet cache key v now)
  | Except.error _ => (out, cache)

/-- QubicAPI.fetchWithRetry.  The cache key is the serialized request
identity; on a fresh cache hit the cached data is returned with zero
invocations of the operation, otherwise the retry loop runs. -/
def fetchWithRetry {E A : Type} (op : Nat → Except E A) (key : String) (now : Int)
    (cache : Cache A) : LoopOut E A × Cache A :=
  match cacheLookup cache key with
  | some (data, ts) =>
    if now - ts < cacheTimeout then ({ result := Except.ok data, attempts := 0, delays := [] }, cache)
    else fetchMiss op key now cache
  | none => fetchMiss op key now cache

theorem fetchWithRetry_eq_miss {E A : Type} (op : Nat → Except E A) (key : String)
    (now : Int) (cache : Cache A) (h : cachedFresh cache key now = none) :
    fetchWithRetry op key now cache = fetchMiss op key now cache := by
  unfold fetchWithRetry cachedFresh at *
  cases hl : cacheLookup cache key with
  | none => rfl
  | some p =>
    obtain ⟨v, ts⟩ := p
    rw [hl] at h
    by_cases ht : now - ts < cacheTimeout
    · simp [ht] at h
    · simp [ht]

theorem fetchWithRetry_eq_hit {E A : Type} (op : Nat → Except E A) (key : String)
    (now : Int) (cache : Cache A) (v : A) (h : cachedFresh cache key now = some v) :
    fetchWithRetry op key now cache =
      ({ result := Except.ok v, attempts := 0, delays := [] }, cache) := by
  unfold fetchWithRetry cachedFresh at *
  cases hl : cacheLookup cache key with
  | none => rw [hl] at h; simp at h
  | some p =>
    obtain ⟨w, ts⟩ := p
    rw [hl] at h
    by_cases ht : now - ts < cacheTimeout
    · simp only [ht, if_true] at h ⊢
      cases h
      rfl
    · simp [ht] at h

theorem fetchLoop_attempts_pos {E A : Type} (op : Nat → Except E A) (i r : Nat) :
    1 ≤ (fetchLoop op i r).attempts := by
  cases r with
  | zero => simp [fetchLoop]
  | succ r =>
    cases hop : op i with
    | ok v => simp [fetchLoop, hop]
    | error e => simp [fetchLoop, hop]

/-! ## QubicAPI.getTransactions -/

/-- A raw upstream transaction (txWrapper.transaction in the v2 transfers
payload); every field may be missing.  A wrapper whose transaction field is
missing is the raw transaction with every field missing (the source
substitutes the empty object). -/
structure RawTransaction where
  id : Option String
  sourceId : Option String
  destId : Option String
  amount : Option Int
  moneyFlew : Option Bool
deriving DecidableEq, Repr

/-- One tick-grouped batch of the upstream payload. -/
structure TickData where
  tickNumber : Option Nat
  transactions : List RawTransaction
deriving DecidableEq, Repr

/-- The object pushed by getTransactions for one raw transaction: idx is the
number of transactions already collected (transactions.length at push time),
used for the synthesized id.  Direction compares the raw (pre-default) destId
with the queried wallet, exactly as tx.destId === wallet does. -/
def rawToTx (wallet : String) (tickNumber : Nat) (idx : Nat) (raw : RawTransaction) :
    Transaction where
  id := raw.id.getD ("tx_" ++ toString tickNumber ++ "_" ++ toString idx)
  sourceId := raw.sourceId.getD ("Unknown")
  destId := raw.destId.getD ("Unknown")
  amount := raw.amount.getD 0
  tick := tickNumber
  timestamp := "Tick " ++ toString tickNumber
  type := if raw.destId = some wallet then TxType.incoming else TxType.outgoing
  moneyFlew := raw.moneyFlew ≠ some false

/-- All transactions of one batch, numbered from k (the collected count when
the batch starts). -/
def mapRaws (wallet : String) (tickNumber : Nat) : Nat → List RawTransaction → List Transaction
  | _, [] => []
  | k, raw :: rest => rawToTx wallet tickNumber k raw :: mapRaws wallet tickNumber (k + 1) rest

/-- The whole payload flattened without any cap, numbering from k: the stream
getTransactions walks through in order. -/
def flattenPayload (wallet : String) : Nat → List TickData → List Transaction
  | _, [] => []
  | k, td :: rest =>
    mapRaws wallet (td.tickNumber.getD 0) k td.transactions ++
      flattenPayload wallet (k + td.transactions.length) rest

/-- The inner loop of getTransactions over one batch: pushes each transaction
and returns early (second component true) as soon as the collected count has
reached the limit.  The length check runs AFTER the push. -/
def processTick (wallet : String) (limit : Nat) (tickNumber : Nat) :
    List RawTransaction → List Transaction → List Transaction × Bool
  | [], acc => (acc, false)
  | raw :: rest, acc =>
    let acc2 := acc ++ [rawToTx wallet tickNumber acc.length raw]
    if limit ≤ acc2.length then (acc2, true)
    else processTick wallet limit tickNumber rest acc2

/-- The outer loop of getTransactions over the tick batches. -/
def getTransactionsAux (wallet : String) (limit : Nat) :
    List TickData → List Transaction → List Transaction
  | [], acc => acc
  | td :: rest, acc =>
    let r := processTick wallet limit (td.tickNumber.getD 0) td.transactions acc
    if r.2 then r.1 else getTransactionsAux wallet limit rest r.1

/-- QubicAPI.getTransactions, given the decoded upstream payload (the
data.transactions array).  The default limit in the source is 100. -/
def getTransactions (wallet : String) (limit : Nat) (payload : List TickData) :
    List Transaction :=
  getTransactionsAux wallet limit payload []

theorem mapRaws_length (wallet : String) (t k : Nat) (raws : List RawTransaction) :
    (mapRaws wallet t k raws).length = raws.length := by
  induction raws generalizing k with
  | nil => rfl
  | cons raw rest ih => simp [mapRaws, ih]

theorem processTick_spec (wallet : String) (limit t : Nat) (raws : List RawTransaction)
    (acc : List Transaction) (hacc : acc.length < limit) :
    processTick wallet limit t raws acc =
      (acc ++ (mapRaws wallet t acc.length raws).take (limit - acc.length),
        decide (limit - acc.length ≤ raws.length)) := by
  induction raws generalizing acc with
  | nil =>
    simp only [processTick, mapRaws, List.take_nil, List.append_nil, List.length_nil]
    congr 1
    simp
    omega
  | cons raw rest ih =>
    simp only [processTick, mapRaws]
    by_cases hstop : limit ≤ (acc ++ [rawToTx wallet t acc.length raw]).length
    · simp only [List.length_append, List.length_cons, List.length_nil] at hstop
      have hlim : limit = acc.length + 1 := by omega
      simp only [if_pos (by simp; omega : limit ≤ (acc ++ [rawToTx wallet t acc.length raw]).length)]
      have h1 : limit - acc.length = 1 := by omega
      rw [h1]
      simp [List.take]
    · simp only [List.length_append, List.length_cons, List.length_nil] at hstop
      simp only [if_neg (by simp; omega : ¬ limit ≤ (acc ++ [rawToTx wallet t acc.length raw]).length)]
      rw [ih (acc ++ [rawToTx wallet t acc.length raw]) (by simp; omega)]
      have hlen : (acc ++ [rawToTx wallet t acc.length raw]).length = acc.length + 1 := by simp
      rw [hlen]
      have htake : limit - acc.length = (limit - (acc.length + 1)) + 1 := by omega
      rw [htake]
      simp only [Prod.mk.injEq, List.take_succ_cons, List.append_assoc, List.singleton_append,
        List.length_cons]
      exact ⟨trivial, by rw [decide_eq_decide]; omega⟩

theorem flattenPayload_append (wallet : String) (k : Nat) (p q : List TickData) :
    flattenPayload wallet k (p ++ q) =
      flattenPayload wallet k p ++
        flattenPayload wallet (k + (flattenPayload wallet k p).length) q := by
  induction p generalizing k with
  | nil => simp [flattenPayload]
  | cons td rest ih =>
    simp only [List.cons_append, flattenPayload, List.append_eq, List.length_append,
      mapRaws_length, ih, List.append_assoc, Nat.add_assoc]

theorem getTransactionsAux_spec (wallet : String) (limit : Nat) (payload : List TickData)
    (acc : List Transaction) (hacc : acc.length < limit) :
    getTransactionsAux wallet limit payload acc =
      acc ++ (flattenPayload wallet acc.length payload).take (limit - acc.length) := by
  induction payload generalizing acc with
  | nil => simp [getTransactionsAux, flattenPayload]
  | cons td rest ih =>
    simp only [getTransactionsAux, flattenPayload]
    rw [processTick_spec wallet limit (td.tickNumber.getD 0) td.transactions acc hacc]
    by_cases hstop : limit - acc.length ≤ td.transactions.length
    · simp only [decide_eq_true_eq, hstop, if_pos]
      rw [List.take_append_eq_append_take]
      have hlen : (mapRaws wallet (td.tickNumber.getD 0) acc.length td.transactions).length =
          td.transactions.length := mapRaws_length ..
      have : limit - acc.length - (mapRaws wallet (td.tickNumber.getD 0) acc.length
          td.transactions).length = 0 := by omega
      rw [this]
      simp
    · simp only [decide_eq_true_eq, hstop, if_neg, not_false_iff]
      have hlen : (mapRaws wallet (td.tickNumber.getD 0) acc.length td.transactions).length =
          td.transactions.length := mapRaws_length ..
      have htk : (mapRaws wallet (td.tickNumber.getD 0) acc.length td.transactions).take
          (limit - acc.length) = mapRaws wallet (td.tickNumber.getD 0) acc.length
          td.transactions := List.take_of_length_le (by omega)
      rw [htk]
      have hlt : (acc ++ mapRaws wallet (td.tickNumber.getD 0) acc.length
          td.transactions).length < limit := by simp [hlen]; omega
      rw [ih _ hlt]
      rw [List.take_append_eq_append_take, htk]
      simp only [List.append_assoc, List.length_append, hlen]
      congr 3
      omega

theorem getTransactions_take (wallet : String) (limit : Nat) (payload : List TickData)
    (h : 1 ≤ limit) :
    getTransactions wallet limit payload =
      (flattenPayload wallet 0 payload).take limit := by
  unfold getTransactions
  rw [getTransactionsAux_spec wallet limit payload [] (by simpa using h)]
  simp

theorem mem_mapRaws (wallet : String) (t k : Nat) (raws : List RawTransaction)
    (tx : Transaction) (h : tx ∈ mapRaws wallet t k raws) :
    ∃ i raw, raw ∈ raws ∧ tx = rawToTx wallet t i raw := by
  induction raws generalizing k with
  | nil => simp [mapRaws] at h
  | cons raw rest ih =>
    simp only [mapRaws, List.mem_cons] at h
    rcases h with h | h
    · exact ⟨k, raw, List.mem_cons_self .., h⟩
    · obtain ⟨i, raw2, hmem, heq⟩ := ih (k + 1) h
      exact ⟨i, raw2, List.mem_cons_of_mem _ hmem, heq⟩

theorem mem_flattenPayload (wallet : String) (k : Nat) (payload : List TickData)
    (tx : Transaction) (h : tx ∈ flattenPayload wallet k payload) :
    ∃ t i raw, tx = rawToTx wallet t i raw := by
  induction payload generalizing k with
  | nil => simp [flattenPayload] at h
  | cons td rest ih =>
    simp only [flattenPayload, List.mem_append] at h
    rcases h with h | h
    · obtain ⟨i, raw, _, heq⟩ := mem_mapRaws wallet (td.tickNumber.getD 0) k td.transactions tx h
      exact ⟨td.tickNumber.getD 0, i, raw, heq⟩
    · exact ih _ h

theorem rawToTx_type_iff (wallet : String) (t i : Nat) (raw : RawTransaction) :
    (rawToTx wallet t i raw).type = TxType.incoming ↔ raw.destId = some wallet := by
  unfold rawToTx
  by_cases h : raw.destId = some wallet
  · simp [h]
  · simp [h]

/-! ## AdvancedAnalytics: state and operations

The class fields (this.portfolioData, this.transactions, this.assets) are an
explicit state record; an operation that mutates the state (the in-place sort
in calculateConcentrationRisk) returns the new state next to its result. -/

/-- The fields of AdvancedAnalytics that analytics reads:
portfolioBalance is this.portfolioData?.balance || 0. -/
structure AnalyticsState where
  portfolioBalance : Int
  transactions : List Transaction
  assets : List Asset
deriving DecidableEq, Repr

/-- AdvancedAnalytics.setData (null arguments already replaced by the
defaults the source substitutes). -/
def setData (portfolioBalance : Int) (transactions : List Transaction)
    (assets : List Asset) : AnalyticsState :=
  { portfolioBalance := portfolioBalance, transactions := transactions, assets := assets }

/-- The reduce computing totalAssets: sum of the amounts. -/
def sumAmounts (assets : List Asset) : Nat :=
  assets.foldl (fun s a => s + a.amount) 0

/-- The reduce computing the Herfindahl-Hirschman index of the amount shares
with respect to the given total. -/
def hhi (assets : List Asset) (total : ℚ) : ℚ :=
  assets.foldl (fun s a => s + ((a.amount : ℚ) / total) * ((a.amount : ℚ) / total)) 0

/-- AdvancedAnalytics.calculateDiversityScore. -/
def calculateDiversityScore (assets : List Asset) : Int :=
  if assets = [] then 0
  else
    let totalAssets := sumAmounts assets
    if totalAssets = 0 then 0
    else round (max 0 (min 100 ((1 - hhi assets (totalAssets : ℚ)) * 100)))

/-- The risk tier strings of calculateConcentrationRisk. -/
inductive RiskLevel
  | High
  | Medium
  | Low
  | VeryLow
  | Unknown
deriving DecidableEq, Repr

/-- Return value of calculateConcentrationRisk.  In the no-holdings case the
source object has no topAsset key; the model uses "None" there, the same
value the defaulting expression produces. -/
structure ConcentrationRisk where
  level : RiskLevel
  percentage : Int
  topAsset : String
deriving DecidableEq, Repr

/-- The in-place descending sort this.assets.sort((a, b) => b.amount - a.amount)
(stable, as Array.prototype.sort is). -/
def sortAssetsDesc (assets : List Asset) : List Asset :=
  sortDescBy (fun a => a.amount) assets

/-- AdvancedAnalytics.calculateConcentrationRisk, as a function of the asset
list (the sorted list is empty exactly when the guard of the source fires). -/
def calculateConcentrationRisk (assets : List Asset) : ConcentrationRisk :=
  match sortAssetsDesc assets with
  | [] => { level := RiskLevel.Unknown, percentage := 0, topAsset := "None" }
  | top :: _ =>
    let totalAssets := sumAmounts assets
    let topAssetPercentage : ℚ :=
      if 0 < totalAssets then (top.amount : ℚ) / (totalAssets : ℚ) * 100 else 0
    let riskLevel :=
      if 70 < topAssetPercentage then RiskLevel.High
      else if 50 < topAssetPercentage then RiskLevel.Medium
      else if 30 < topAssetPercentage then RiskLevel.Low
      else RiskLevel.VeryLow
    { level := riskLevel, percentage := round topAssetPercentage,
      topAsset := if top.name = "" then "None" else top.name }

/-- calculateConcentrationRisk together with its side effect: the in-place
sort reorders this.assets. -/
def calculateConcentrationRiskS (st : AnalyticsState) : ConcentrationRisk × AnalyticsState :=
  (calculateConcentrationRisk st.assets, { st with assets := sortAssetsDesc st.assets })

/-- One entry of topCounterparties. -/
structure Counterparty where
  address : String
  transactions : Nat
deriving DecidableEq, Repr

/-- Return value of analyzeTransactionPatterns (peakHours, always the empty
array in the source, is omitted). -/
structure TxPatterns where
  averageAmount : Int
  frequency : ℚ
  pattern : String
  topCounterparties : List Counterparty
deriving DecidableEq, Repr

/-- AdvancedAnalytics.truncateAddress. -/
def truncateAddress (address : String) : String :=
  if address = "" ∨ address = "Unknown" then address
  else address.take 8 ++ "..." ++ address.drop (address.length - 6)

/-- The counterparty of a transaction: sourceId when incoming, destId when
outgoing. -/
def counterpartyOf (tx : Transaction) : String :=
  if tx.type = TxType.incoming then tx.sourceId else tx.destId

/-- counterparties[c] = (counterparties[c] || 0) + 1 on the insertion-ordered
counter table. -/
def bumpCounter : List (String × Nat) → String → List (String × Nat)
  | [], k => [(k, 1)]
  | (k2, n) :: rest, k =>
    if k2 = k then (k2, n + 1) :: rest else (k2, n) :: bumpCounter rest k

/-- The forEach building the counterparties table: counterparties that are
missing (falsy) or the sentinel Unknown are skipped. -/
def countCounterparties (txs : List Transaction) : List (String × Nat) :=
  txs.foldl
    (fun acc tx =>
      let c := counterpartyOf tx
      if c ≠ "" ∧ c ≠ "Unknown" then bumpCounter acc c else acc)
    []

/-- The ticks considered by getDaySpan and analyzeNetworkActivity:
all ticks > 0. -/
def posTicks (txs : List Transaction) : List Nat :=
  (txs.map (fun tx => tx.tick)).filter (fun t => 0 < t)

/-- Math.min over a list (only ever used on non-empty lists; 0 for []). -/
def minOfTicks : List Nat → Nat
  | [] => 0
  | t :: ts => ts.foldl min t

/-- Math.max over a list (only ever used on non-empty lists; 0 for []). -/
def maxOfTicks : List Nat → Nat
  | [] => 0
  | t :: ts => ts.foldl max t

/-- AdvancedAnalytics.getDaySpan: tick range over positive ticks divided by
8640 ticks per day, floored at 1. -/
def getDaySpan (txs : List Transaction) : ℚ :=
  if txs.length < 2 then 1
  else
    let ticks := posTicks txs
    if ticks.length < 2 then 1
    else max 1 (((maxOfTicks ticks : ℚ) - (minOfTicks ticks : ℚ)) / 8640)

/-- The unrounded frequency of analyzeTransactionPatterns:
transactions per day, 0 when the day span is not positive. -/
def rawFrequency (txs : List Transaction) : ℚ :=
  if 0 < getDaySpan txs then (txs.length : ℚ) / getDaySpan txs else 0

/-- The activity pattern chain of analyzeTransactionPatterns (the initial
value and the final branch are both the Low Activity string). -/
def activityPattern (frequency : ℚ) : String :=
  if 5 < frequency then "High Activity"
  else if 2 < frequency then "Moderate Activity"
  else if (1 : ℚ) / 2 < frequency then "Low Activity"
  else "Low Activity"

/-- AdvancedAnalytics.analyzeTransactionPatterns. -/
def analyzeTransactionPatterns (txs : List Transaction) : TxPatterns :=
  if txs = [] then
    { averageAmount := 0, frequency := 0, pattern := "Insufficient data",
      topCounterparties := [] }
  else
    let avgAmount : ℚ := (txs.foldl (fun s tx => s + (tx.amount : ℚ)) 0) / (txs.length : ℚ)
    let frequency := rawFrequency txs
    let top := ((sortDescBy (fun p => p.2) (countCounterparties txs)).take 5).map
      (fun p => { address := truncateAddress p.1, transactions := p.2 : Counterparty })
    { averageAmount := round avgAmount, frequency := (round (frequency * 10) : ℚ) / 10,
      pattern := activityPattern frequency, topCounterparties := top }

/-- One entry of the calculateAssetPerformance result. -/
structure AssetPerf where
  name : String
  amount : Nat
  incomingCount : Nat
  outgoingCount : Nat
  netFlow : Int
  activity : Nat
  trend : String
deriving DecidableEq, Repr

/-- AdvancedAnalytics.calculateAssetTrend: classification over the last 10
transactions related to the asset name (1.5 is exactly 3/2 as a double). -/
def calculateAssetTrend (txs : List Transaction) (assetName : String) : String :=
  let filtered := txs.filter (fun tx => tx.sourceId = assetName ∨ tx.destId = assetName)
  let recentTxs := filtered.drop (filtered.length - 10)
  if recentTxs.length < 3 then "stable"
  else
    let incomingRecent := (recentTxs.filter (fun tx => tx.type = TxType.incoming)).length
    let outgoingRecent := (recentTxs.filter (fun tx => tx.type = TxType.outgoing)).length
    if (outgoingRecent : ℚ) * (3 / 2) < (incomingRecent : ℚ) then "increasing"
    else if (incomingRecent : ℚ) * (3 / 2) < (outgoingRecent : ℚ) then "decreasing"
    else "stable"

/-- AdvancedAnalytics.calculateAssetPerformance: pure in this.assets, the
descending sort here runs on the freshly mapped array, not in place. -/
def calculateAssetPerformance (transactions : List Transaction) (assets : List Asset) :
    List AssetPerf :=
  if assets = [] then []
  else
    sortDescBy (fun p => p.amount)
      (assets.map (fun asset =>
        let relatedTxs := transactions.filter
          (fun tx => tx.sourceId = asset.name ∨ tx.destId = asset.name)
        let incomingTxs := relatedTxs.filter (fun tx => tx.type = TxType.incoming)
        let outgoingTxs := relatedTxs.filter (fun tx => tx.type = TxType.outgoing)
        { name := asset.name, amount := asset.amount,
          incomingCount := incomingTxs.length, outgoingCount := outgoingTxs.length,
          netFlow := (incomingTxs.length : Int) - (outgoingTxs.length : Int),
          activity := relatedTxs.length,
          trend := calculateAssetTrend transactions asset.name }))

/-- calculateAssetPerformance with its (absent) state effect. -/
def calculateAssetPerformanceS (st : AnalyticsState) : List AssetPerf × AnalyticsState :=
  (calculateAssetPerformance st.transactions st.assets, st)

/-- Return value of analyzeNetworkActivity. -/
structure NetworkActivity where
  tickMin : Nat
  tickMax : Nat
  tickSpan : Nat
  averageTicksPerTx : Int
  networkUtilization : String
deriving DecidableEq, Repr

/-- AdvancedAnalytics.analyzeNetworkActivity. -/
def analyzeNetworkActivity (txs : List Transaction) : NetworkActivity :=
  if txs = [] then
    { tickMin := 0, tickMax := 0, tickSpan := 0, averageTicksPerTx := 0,
      networkUtilization := "Unknown" }
  else
    let ticks := posTicks txs
    if ticks = [] then
      { tickMin := 0, tickMax := 0, tickSpan := 0, averageTicksPerTx := 0,
        networkUtilization := "Unknown" }
    else
      let minT := minOfTicks ticks
      let maxT := maxOfTicks ticks
      let tickSpan := maxT - minT
      let averageTicksPerTx : ℚ := (tickSpan : ℚ) / (txs.length : ℚ)
      let utilization :=
        if averageTicksPerTx < 100 then "High"
        else if averageTicksPerTx < 500 then "Medium"
        else "Low"
      { tickMin := minT, tickMax := maxT, tickSpan := tickSpan,
        averageTicksPerTx := round averageTicksPerTx, networkUtilization := utilization }

/-- One insight of generateInsights. -/
structure Insight where
  type : String
  title : String
  message : String
  action : String
deriving DecidableEq, Repr

/-- The diversity branch of generateInsights. -/
def diversityInsights (diversityScore : Int) : List Insight :=
  if diversityScore < 30 then
    [{ type := "warning", title := "Low Portfolio Diversity",
       message := "Your portfolio diversity score is " ++ toString diversityScore ++
         "/100. Consider diversifying across more assets.",
       action := "Diversify holdings" }]
  else if 70 < diversityScore then
    [{ type := "success", title := "Well Diversified Portfolio",
       message := "Excellent diversity score of " ++ toString diversityScore ++
         "/100. Your portfolio is well-balanced.",
       action := "Maintain balance" }]
  else []

/-- The concentration branch of generateInsights. -/
def concentrationInsights (c : ConcentrationRisk) : List Insight :=
  if c.level = RiskLevel.High then
    [{ type := "warning", title := "High Concentration Risk",
       message := toString c.percentage ++ "% of your portfolio is in " ++ c.topAsset ++
         ". This increases risk.",
       action := "Consider rebalancing" }]
  else []

/-- The activity branch of generateInsights (it reads the rounded frequency
field of the patterns object). -/
def activityInsights (patterns : TxPatterns) : List Insight :=
  if 5 < patterns.frequency then
    [{ type := "info", title := "High Trading Activity",
       message := "You average " ++ toString patterns.frequency ++
         " transactions per day. Monitor transaction costs.",
       action := "Review trading strategy" }]
  else if patterns.frequency < 1 / 10 then
    [{ type := "info", title := "Low Activity Portfolio",
       message := "Your portfolio shows minimal activity. This could be a long-term holding strategy.",
       action := "Consider periodic rebalancing" }]
  else []

/-- AdvancedAnalytics.generateInsights, with the state effect of its call to
calculateConcentrationRisk. -/
def generateInsightsS (st : AnalyticsState) : List Insight × AnalyticsState :=
  let diversityScore := calculateDiversityScore st.assets
  let r := calculateConcentrationRiskS st
  let patterns := analyzeTransactionPatterns r.2.transactions
  (diversityInsights diversityScore ++ concentrationInsights r.1 ++
    activityInsights patterns, r.2)

/-! ## Balance timeline reconstruction -/

/-- One entry of the dataPoints array (date is the JS Date value in ms). -/
structure TimelinePoint where
  tick : Nat
  balance : Int
  date : Int
deriving DecidableEq, Repr

/-- Return value of calculateRealBalanceTimeline; a label is the calendar
day of the date (model of toLocaleDateString, see dateLabel). -/
structure Timeline where
  labels : List Int
  balances : List Int
  ticks : List Nat
deriving DecidableEq, Repr

/-- The ascending sort [...this.transactions].sort((a, b) => a.tick - b.tick)
(a copy: this one does NOT mutate the state). -/
def sortTxsByTick (txs : List Transaction) : List Transaction :=
  sortAscBy (fun tx => tx.tick) txs

/-- Reversing one transaction effect on the balance (the backward walk). -/
def revStep (b : Int) (tx : Transaction) : Int :=
  if tx.type = TxType.incoming then b - tx.amount else b + tx.amount

/-- Applying one transaction effect on the balance (the forward direction). -/
def fwdStep (b : Int) (tx : Transaction) : Int :=
  if tx.type = TxType.incoming then b + tx.amount else b - tx.amount

/-- The running balance after the backward walk has reversed every
transaction of the suffix, in descending position order (the last element of
the suffix is reversed first, as the loop runs from i = n-1 down). -/
def revBalance (current : Int) (suffix : List Transaction) : Int :=
  suffix.foldr (fun tx b => revStep b tx) current

/-- Model of toLocaleDateString on a ms timestamp: the UTC day index. -/
def dateLabel (t : Int) : Int := Int.fdiv t 86400000

/-- The points unshifted by the backward loop, in final (ascending index)
order: index i is kept when i % 5 = 0 or the transaction amount exceeds 10%
of the current balance; its balance is the clamped running balance after
reversing transactions n-1, ..., i. -/
def samplePoints (sorted : List Transaction) (current : Int) (now : Int) :
    List TimelinePoint :=
  (List.range sorted.length).filterMap (fun i =>
    match sorted[i]? with
    | none => none
    | some tx =>
      if i % 5 = 0 ∨ (current : ℚ) * (1 / 10) < |(tx.amount : ℚ)| then
        some { tick := tx.tick, balance := max 0 (revBalance current (sorted.drop i)),
               date := now - ((sorted.length - i : Nat) : Int) * 3600000 }
      else none)

/-- sortedTxs[sortedTxs.length - 1]?.tick || 0. -/
def lastTickOf (sorted : List Transaction) : Nat :=
  match sorted.getLast? with
  | some tx => tx.tick
  | none => 0

/-- The full dataPoints array of calculateRealBalanceTimeline (the current
point, unshifted first, ends up last). -/
def dataPoints (txs : List Transaction) (currentBalance : Int) (now : Int) :
    List TimelinePoint :=
  let sorted := sortTxsByTick txs
  samplePoints sorted currentBalance now ++
    [{ tick := lastTickOf sorted, balance := currentBalance, date := now }]

/-- AdvancedAnalytics.calculateRealBalanceTimeline; dataPoints.slice(-20)
keeps the last 20 points. -/
def calculateRealBalanceTimeline (txs : List Transaction) (currentBalance : Int)
    (now : Int) : Timeline :=
  if txs = [] then { labels := [], balances := [], ticks := [] }
  else
    let pts := dataPoints txs currentBalance now
    let limitedData := pts.drop (pts.length - 20)
    { labels := limitedData.map (fun p => dateLabel p.date),
      balances := limitedData.map (fun p => p.balance),
      ticks := limitedData.map (fun p => p.tick) }

/-! ## getAnalyticsSummary -/

/-- Return value of getAnalyticsSummary. -/
structure AnalyticsSummary where
  diversity : Int
  concentration : ConcentrationRisk
  patterns : TxPatterns
  performance : List AssetPerf
  network : NetworkActivity
  insights : List Insight
  timeline : Timeline
deriving DecidableEq, Repr

/-- AdvancedAnalytics.getAnalyticsSummary at wall-clock time now, threading
the state effects of its calls in source order (calculateConcentrationRisk
and generateInsights both re-sort this.assets in place). -/
def getAnalyticsSummaryS (st : AnalyticsState) (now : Int) :
    AnalyticsSummary × AnalyticsState :=
  let diversity := calculateDiversityScore st.assets
  let r1 := calculateConcentrationRiskS st
  let patterns := analyzeTransactionPatterns r1.2.transactions
  let performance := calculateAssetPerformance r1.2.transactions r1.2.assets
  let network := analyzeNetworkActivity r1.2.transactions
  let r2 := generateInsightsS r1.2
  let timeline := calculateRealBalanceTimeline r2.2.transactions r2.2.portfolioBalance now
  ({ diversity := diversity, concentration := r1.1, patterns := patterns,
     performance := performance, network := network, insights := r2.1,
     timeline := timeline }, r2.2)

/-! ## Spec-side formulas (for refinement-style claims) -/

/-- Modelled from the spec wording of the concentration claim: topShare =
largest amount / total amount x 100 (0 when the total is 0, as the source
guards). -/
def specTopShare (topAmount : Nat) (assets : List Asset) : ℚ :=
  if 0 < sumAmounts assets then (topAmount : ℚ) / (sumAmounts assets : ℚ) * 100 else 0

/-- Modelled from the spec wording of the frequency claim: day span =
max(1, (maxTick - minTick) / 8640) over the positive ticks. -/
def specDaySpan (txs : List Transaction) : ℚ :=
  max 1 (((maxOfTicks (posTicks txs) : ℚ) - (minOfTicks (posTicks txs) : ℚ)) / 8640)

/-! ## Arithmetic helper lemmas -/

theorem round_mono_rat {x y : ℚ} (h : x ≤ y) : round x ≤ round y := by
  rw [round_eq, round_eq]
  exact Int.floor_le_floor (by linarith)

theorem round_hundred : round (100 : ℚ) = 100 := by
  rw [round_eq]
  norm_num

theorem foldl_add_amount (l : List Asset) (n : Nat) :
    l.foldl (fun s a => s + a.amount) n = n + l.foldl (fun s a => s + a.amount) 0 := by
  induction l generalizing n with
  | nil => simp
  | cons a rest ih =>
    simp only [List.foldl_cons]
    rw [ih (n + a.amount), ih (0 + a.amount)]
    omega

theorem amount_le_sumAmounts (assets : List Asset) (a : Asset) (ha : a ∈ assets) :
    a.amount ≤ sumAmounts assets := by
  induction assets with
  | nil => simp at ha
  | cons b rest ih =>
    unfold sumAmounts at *
    simp only [List.foldl_cons]
    rw [foldl_add_amount rest (0 + b.amount)]
    rcases List.mem_cons.mp ha with ha | ha
    · subst ha; omega
    · have := ih ha; omega

/-- C3: for every list of asset holdings (amounts are non-negative integers
by type), the diversity score equals round(clamp((1 - HHI) x 100, 0, 100))
and lies in [0, 100]; it is 0 for an empty holding list and when the total
amount is 0; the assets A:100, B:0 give score 0 and A:50, B:50 give
score 50. -/
theorem C3_diversity_score (assets : List Asset) :
    0 ≤ calculateDiversityScore assets ∧
    calculateDiversityScore assets ≤ 100 ∧
    (assets = [] → calculateDiversityScore assets = 0) ∧
    (sumAmounts assets = 0 → calculateDiversityScore assets = 0) ∧
    (assets ≠ [] → sumAmounts assets ≠ 0 →
      calculateDiversityScore assets =
        round (max 0 (min 100 ((1 - hhi assets (sumAmounts assets : ℚ)) * 100)))) ∧
    calculateDiversityScore [⟨"A", 100⟩, ⟨"B", 0⟩] = 0 ∧
    calculateDiversityScore [⟨"A", 50⟩, ⟨"B", 50⟩] = 50 := by
  refine ⟨?_, ?_, ?_, ?_, ?_, ?_, ?_⟩
  · by_cases h1 : assets = []
    · simp [calculateDiversityScore, h1]
    · by_cases h2 : sumAmounts assets = 0
      · simp [calculateDiversityScore, h1, h2]
      · simp only [calculateDiversityScore, h1, h2, if_false]
        have h := round_mono_rat
          (le_max_left (0 : ℚ) (min 100 ((1 - hhi assets (sumAmounts assets : ℚ)) * 100)))
        rw [round_zero] at h
        simpa using h
  · by_cases h1 : assets = []
    · simp [calculateDiversityScore, h1]
    · by_cases h2 : sumAmounts assets = 0
      · simp [calculateDiversityScore, h1, h2]
      · simp only [calculateDiversityScore, h1, h2, if_false]
        have hle : max 0 (min 100 ((1 - hhi assets (sumAmounts assets : ℚ)) * 100)) ≤ (100 : ℚ) := by
          apply max_le
          · norm_num
          · exact min_le_left _ _
        have h := round_mono_rat hle
        rw [round_hundred] at h
        simpa using h
  · intro h1; simp [calculateDiversityScore, h1]
  · intro h2
    by_cases h1 : assets = []
    · simp [calculateDiversityScore, h1]
    · simp [calculateDiversityScore, h1, h2]
  · intro h1 h2
    simp [calculateDiversityScore, h1, h2]
  · have hne : ¬ ([⟨"A", 100⟩, ⟨"B", 0⟩] : List Asset) = [] := by simp
    norm_num [calculateDiversityScore, sumAmounts, hhi, round_eq, hne]
  · have hne : ¬ ([⟨"A", 50⟩, ⟨"B", 50⟩] : List Asset) = [] := by simp
    norm_num [calculateDiversityScore, sumAmounts, hhi, round_eq, hne]

/-- Witness for C3 at concrete inputs: the empty list and an all-zero
holding list both score 0. -/
theorem C3_diversity_score_witness :
    calculateDiversityScore [] = 0 ∧ calculateDiversityScore [⟨"A", 0⟩] = 0 :=
  ⟨(C3_diversity_score []).2.2.1 rfl, (C3_diversity_score [⟨"A", 0⟩]).2.2.2.1 (by decide)⟩

theorem riskLevel_iffs (ts : ℚ) :
    ((if 70 < ts then RiskLevel.High else if 50 < ts then RiskLevel.Medium
      else if 30 < ts then RiskLevel.Low else RiskLevel.VeryLow) = RiskLevel.High
        ↔ 70 < ts) ∧
    ((if 70 < ts then RiskLevel.High else if 50 < ts then RiskLevel.Medium
      else if 30 < ts then RiskLevel.Low else RiskLevel.VeryLow) = RiskLevel.Medium
        ↔ 50 < ts ∧ ts ≤ 70) ∧
    ((if 70 < ts then RiskLevel.High else if 50 < ts then RiskLevel.Medium
      else if 30 < ts then RiskLevel.Low else RiskLevel.VeryLow) = RiskLevel.Low
        ↔ 30 < ts ∧ ts ≤ 50) ∧
    ((if 70 < ts then RiskLevel.High else if 50 < ts then RiskLevel.Medium
      else if 30 < ts then RiskLevel.Low else RiskLevel.VeryLow) = RiskLevel.VeryLow
        ↔ ts ≤ 30) := by
  split_ifs with h70 h50 h30 <;>
    [skip; rw [not_lt] at h70; rw [not_lt] at h70 h50; rw [not_lt] at h70 h50 h30] <;>
    refine ⟨?_, ?_, ?_, ?_⟩ <;> simp <;> (try constructor) <;> intros <;> linarith

/-- C5: with no holdings the tier is Unknown; for every non-empty holding
list there is a top holding (of maximal amount) such that, with
topShare = top amount / total amount x 100 (a value in [0, 100]), the tier
is High iff topShare > 70, Medium iff 50 < topShare <= 70, Low iff
30 < topShare <= 50 and Very Low iff topShare <= 30, and the result carries
the top holding name (when it is a non-empty string) and the rounded
percentage. -/
theorem C5_concentration_risk (assets : List Asset) (h : assets ≠ []) :
    (calculateConcentrationRisk []).level = RiskLevel.Unknown ∧
    ∃ top, top ∈ assets ∧ (∀ a ∈ assets, a.amount ≤ top.amount) ∧
      0 ≤ specTopShare top.amount assets ∧ specTopShare top.amount assets ≤ 100 ∧
      ((calculateConcentrationRisk assets).level = RiskLevel.High ↔
        70 < specTopShare top.amount assets) ∧
      ((calculateConcentrationRisk assets).level = RiskLevel.Medium ↔
        50 < specTopShare top.amount assets ∧ specTopShare top.amount assets ≤ 70) ∧
      ((calculateConcentrationRisk assets).level = RiskLevel.Low ↔
        30 < specTopShare top.amount assets ∧ specTopShare top.amount assets ≤ 50) ∧
      ((calculateConcentrationRisk assets).level = RiskLevel.VeryLow ↔
        specTopShare top.amount assets ≤ 30) ∧
      (calculateConcentrationRisk assets).percentage = round (specTopShare top.amount assets) ∧
      (top.name ≠ "" → (calculateConcentrationRisk assets).topAsset = top.name) := by
  refine ⟨by decide, ?_⟩
  cases hs : sortAssetsDesc assets with
  | nil =>
    have hs2 : sortDescBy (fun a => a.amount) assets = [] := hs
    exact absurd ((sortDescBy_eq_nil_iff (fun a => a.amount) assets).mp hs2) h
  | cons top rest =>
    have hperm : (top :: rest).Perm assets := by
      have hp := perm_sortDescBy (fun a => a.amount) assets
      have hs2 : sortDescBy (fun a => a.amount) assets = top :: rest := hs
      rwa [hs2] at hp
    have hmem : top ∈ assets := hperm.mem_iff.mp (List.mem_cons_self ..)
    have hmax : ∀ a ∈ assets, a.amount ≤ top.amount := by
      intro a ha
      have ha2 : a ∈ top :: rest := hperm.mem_iff.mpr ha
      rcases List.mem_cons.mp ha2 with ha2 | ha2
      · subst ha2; exact le_refl _
      · have hp := pairwise_sortDescBy (fun a => a.amount) assets
        have hs2 : sortDescBy (fun a => a.amount) assets = top :: rest := hs
        rw [hs2] at hp
        exact (List.pairwise_cons.mp hp).1 a ha2
    have hcalc : calculateConcentrationRisk assets =
        { level :=
            if 70 < specTopShare top.amount assets then RiskLevel.High
            else if 50 < specTopShare top.amount assets then RiskLevel.Medium
            else if 30 < specTopShare top.amount assets then RiskLevel.Low
            else RiskLevel.VeryLow,
          percentage := round (specTopShare top.amount assets),
          topAsset := if top.name = "" then "None" else top.name } := by
      simp only [calculateConcentrationRisk, hs, specTopShare]
    have hiffs := riskLevel_iffs (specTopShare top.amount assets)
    have hts0 : 0 ≤ specTopShare top.amount assets := by
      unfold specTopShare
      split
      · positivity
      · exact le_refl 0
    have hts100 : specTopShare top.amount assets ≤ 100 := by
      unfold specTopShare
      split
      · rename_i hpos
        have hle : top.amount ≤ sumAmounts assets := amount_le_sumAmounts assets top hmem
        have hsq : (0 : ℚ) < (sumAmounts assets : ℚ) := by exact_mod_cast hpos
        have hleq : (top.amount : ℚ) ≤ (sumAmounts assets : ℚ) := by exact_mod_cast hle
        have hd1 : (top.amount : ℚ) / (sumAmounts assets : ℚ) ≤ 1 :=
          div_le_one_of_le₀ hleq (le_of_lt hsq)
        linarith
      · norm_num
    refine ⟨top, hmem, hmax, hts0, hts100, ?_, ?_, ?_, ?_, by simp [hcalc], ?_⟩
    · rw [hcalc]; exact hiffs.1
    · rw [hcalc]; exact hiffs.2.1
    · rw [hcalc]; exact hiffs.2.2.1
    · rw [hcalc]; exact hiffs.2.2.2
    · intro hname
      simp [hcalc, hname]

/-- Witness for C5: applying the theorem at a concrete one-element holding
list (yielding the empty-holdings Unknown tier fact). -/
theorem C5_concentration_risk_witness :
    (calculateConcentrationRisk []).level = RiskLevel.Unknown :=
  (C5_concentration_risk [⟨"X", 1⟩] (by simp)).1

theorem posTicks_length_le (txs : List Transaction) : (posTicks txs).length ≤ txs.length := by
  unfold posTicks
  exact le_trans (List.length_filter_le _ _) (le_of_eq (List.length_map _ _))

theorem minOfTicks_eq_maxOfTicks_of_short (l : List Nat) (h : l.length < 2) :
    minOfTicks l = maxOfTicks l := by
  match l, h with
  | [], _ => rfl
  | [t], _ => rfl

theorem getDaySpan_eq_spec (txs : List Transaction) : getDaySpan txs = specDaySpan txs := by
  unfold getDaySpan specDaySpan
  by_cases h1 : txs.length < 2
  · rw [if_pos h1]
    have hshort : (posTicks txs).length < 2 := lt_of_le_of_lt (posTicks_length_le txs) h1
    rw [minOfTicks_eq_maxOfTicks_of_short _ hshort]
    norm_num
  · rw [if_neg h1]
    by_cases h2 : (posTicks txs).length < 2
    · simp only [h2, if_true]
      rw [minOfTicks_eq_maxOfTicks_of_short _ h2]
      norm_num
    · simp only [h2, if_false]

theorem one_le_getDaySpan (txs : List Transaction) : 1 ≤ getDaySpan txs := by
  unfold getDaySpan
  by_cases h1 : txs.length < 2
  · rw [if_pos h1]
  · rw [if_neg h1]
    by_cases h2 : (posTicks txs).length < 2
    · simp only [h2, if_true]
      exact le_refl 1
    · simp only [h2, if_false]
      exact le_max_left 1 _

theorem rawFrequency_eq (txs : List Transaction) :
    rawFrequency txs = (txs.length : ℚ) / getDaySpan txs := by
  unfold rawFrequency
  rw [if_pos (lt_of_lt_of_le one_pos (one_le_getDaySpan txs))]

theorem activityPattern_iffs (f : ℚ) :
    (activityPattern f = "High Activity" ↔ 5 < f) ∧
    (activityPattern f = "Moderate Activity" ↔ 2 < f ∧ f ≤ 5) ∧
    (activityPattern f = "Low Activity" ↔ f ≤ 2) := by
  unfold activityPattern
  split_ifs with h5 h2 h05 <;>
    [skip; rw [not_lt] at h5; rw [not_lt] at h5 h2; rw [not_lt] at h5 h2 h05] <;>
    refine ⟨?_, ?_, ?_⟩ <;> simp <;> (try constructor) <;> intros <;> linarith

theorem patterns_fields (txs : List Transaction) (h : txs ≠ []) :
    (analyzeTransactionPatterns txs).pattern = activityPattern (rawFrequency txs) ∧
    (analyzeTransactionPatterns txs).frequency = (round (rawFrequency txs * 10) : ℚ) / 10 ∧
    (analyzeTransactionPatterns txs).topCounterparties =
      ((sortDescBy (fun p => p.2) (countCounterparties txs)).take 5).map
        (fun p => { address := truncateAddress p.1, transactions := p.2 : Counterparty }) := by
  simp [analyzeTransactionPatterns, h]

/-- One synthetic transaction of the frequency scenario. -/
def scTx (t : Nat) (ty : TxType) : Transaction :=
  { id := "tx", sourceId := "SRC", destId := "DST", amount := 100, tick := t,
    timestamp := "Tick", type := ty, moneyFlew := true }

/-- The spec scenario: 10 transactions, 9 incoming and 1 outgoing, all within
a 50-tick span. -/
def scenarioTxs : List Transaction :=
  [scTx 100 TxType.incoming, scTx 105 TxType.incoming, scTx 110 TxType.incoming,
   scTx 115 TxType.incoming, scTx 120 TxType.incoming, scTx 125 TxType.incoming,
   scTx 130 TxType.incoming, scTx 135 TxType.incoming, scTx 140 TxType.outgoing,
   scTx 150 TxType.incoming]

theorem scenario_daySpan : getDaySpan scenarioTxs = 1 := by
  have hlen2 : ¬(scenarioTxs.length < 2) := by decide
  have hlen3 : ¬((posTicks scenarioTxs).length < 2) := by decide
  have hmax : maxOfTicks (posTicks scenarioTxs) = 150 := rfl
  have hmin : minOfTicks (posTicks scenarioTxs) = 100 := rfl
  unfold getDaySpan
  rw [if_neg hlen2]
  simp only [hlen3, if_false, hmax, hmin]
  norm_num

theorem scenario_frequency : rawFrequency scenarioTxs = 10 := by
  rw [rawFrequency_eq, scenario_daySpan]
  have hl : scenarioTxs.length = 10 := rfl
  rw [hl]
  norm_num

/-- C6: for every non-empty transaction list the frequency is the
transaction count divided by max(1, (maxTick - minTick) / 8640) over the
positive ticks, and the activity tier is High iff frequency > 5, Moderate
iff 2 < frequency <= 5 and Low otherwise; the 10-transaction 50-tick
scenario has day span 1, frequency 10 and tier High. -/
theorem C6_transaction_frequency (txs : List Transaction) (h : txs ≠ []) :
    getDaySpan txs = specDaySpan txs ∧
    rawFrequency txs = (txs.length : ℚ) / specDaySpan txs ∧
    ((analyzeTransactionPatterns txs).pattern = "High Activity" ↔ 5 < rawFrequency txs) ∧
    ((analyzeTransactionPatterns txs).pattern = "Moderate Activity" ↔
      2 < rawFrequency txs ∧ rawFrequency txs ≤ 5) ∧
    ((analyzeTransactionPatterns txs).pattern = "Low Activity" ↔ rawFrequency txs ≤ 2) ∧
    getDaySpan scenarioTxs = 1 ∧
    rawFrequency scenarioTxs = 10 ∧
    (analyzeTransactionPatterns scenarioTxs).pattern = "High Activity" ∧
    (analyzeTransactionPatterns scenarioTxs).frequency = 10 := by
  have hp := patterns_fields txs h
  have hiffs := activityPattern_iffs (rawFrequency txs)
  have hscne : scenarioTxs ≠ [] := by simp [scenarioTxs]
  have hsc := patterns_fields scenarioTxs hscne
  refine ⟨getDaySpan_eq_spec txs, ?_, ?_, ?_, ?_, scenario_daySpan, scenario_frequency, ?_, ?_⟩
  · rw [rawFrequency_eq, getDaySpan_eq_spec]
  · rw [hp.1]; exact hiffs.1
  · rw [hp.1]; exact hiffs.2.1
  · rw [hp.1]; exact hiffs.2.2
  · rw [hsc.1, scenario_frequency]
    unfold activityPattern
    norm_num
  · rw [hsc.2.1, scenario_frequency]
    norm_num [round_eq]

/-- Witness for C6: the theorem applied at the scenario list itself. -/
theorem C6_transaction_frequency_witness :
    rawFrequency scenarioTxs = 10 ∧
    (analyzeTransactionPatterns scenarioTxs).pattern = "High Activity" :=
  ⟨(C6_transaction_frequency scenarioTxs (by simp [scenarioTxs])).2.2.2.2.2.2.1,
   (C6_transaction_frequency scenarioTxs (by simp [scenarioTxs])).2.2.2.2.2.2.2.1⟩

theorem fetchLoop_ok0 {E A : Type} (op : Nat → Except E A) (v : A)
    (h0 : op 0 = Except.ok v) :
    fetchLoop op 0 2 = { result := Except.ok v, attempts := 1, delays := [] } := by
  simp [fetchLoop, h0]

theorem fetchLoop_e0_ok1 {E A : Type} (op : Nat → Except E A) (e0 : E) (v : A)
    (h0 : op 0 = Except.error e0) (h1 : op 1 = Except.ok v) :
    fetchLoop op 0 2 = { result := Except.ok v, attempts := 2, delays := [1000] } := by
  simp [fetchLoop, h0, h1, retryDelay]

theorem fetchLoop_e0_e1 {E A : Type} (op : Nat → Except E A) (e0 e1 : E)
    (h0 : op 0 = Except.error e0) (h1 : op 1 = Except.error e1) :
    fetchLoop op 0 2 = { result := op 2, attempts := 3, delays := [1000, 2000] } := by
  simp [fetchLoop, h0, h1, retryDelay]

theorem fetchMiss_of_loop_ok {E A : Type} (op : Nat → Except E A) (key : String) (now : Int)
    (cache : Cache A) (o : LoopOut E A) (v : A)
    (h : fetchLoop op 0 2 = o) (hres : o.result = Except.ok v) :
    fetchMiss op key now cache = (o, cacheSet cache key v now) := by
  unfold fetchMiss
  have hra : retryAttempts - 1 = 2 := rfl
  rw [hra, h]
  simp [hres]

theorem fetchMiss_of_loop_error {E A : Type} (op : Nat → Except E A) (key : String) (now : Int)
    (cache : Cache A) (o : LoopOut E A) (e : E)
    (h : fetchLoop op 0 2 = o) (hres : o.result = Except.error e) :
    fetchMiss op key now cache = (o, cache) := by
  unfold fetchMiss
  have hra : retryAttempts - 1 = 2 := rfl
  rw [hra, h]
  simp [hres]

/-- C2: on a cache miss the operation is attempted at most 3 times, with a
delay of retryDelay x (i - 1) before attempt i (1000 ms then 2000 ms); the
first success is returned and cached with no further attempts; if all three
attempts fail, the error of the final attempt is propagated and the cache
is left untouched (failures are never cached). -/
theorem C2_fetch_with_retry {E A : Type} (op : Nat → Except E A) (key : String) (now : Int)
    (cache : Cache A) (hmiss : cachedFresh cache key now = none) :
    (fetchWithRetry op key now cache).1.attempts ≤ 3 ∧
    (fetchWithRetry op key now cache).1.delays =
      (List.range ((fetchWithRetry op key now cache).1.attempts - 1)).map
        (fun j => retryDelay * (j + 1)) ∧
    (∀ v, op 0 = Except.ok v →
      fetchWithRetry op key now cache =
        ({ result := Except.ok v, attempts := 1, delays := [] }, cacheSet cache key v now)) ∧
    (∀ e0 v, op 0 = Except.error e0 → op 1 = Except.ok v →
      fetchWithRetry op key now cache =
        ({ result := Except.ok v, attempts := 2, delays := [1000] },
          cacheSet cache key v now)) ∧
    (∀ e0 e1 v, op 0 = Except.error e0 → op 1 = Except.error e1 → op 2 = Except.ok v →
      fetchWithRetry op key now cache =
        ({ result := Except.ok v, attempts := 3, delays := [1000, 2000] },
          cacheSet cache key v now)) ∧
    (∀ e0 e1 e2, op 0 = Except.error e0 → op 1 = Except.error e1 → op 2 = Except.error e2 →
      fetchWithRetry op key now cache =
        ({ result := Except.error e2, attempts := 3, delays := [1000, 2000] }, cache)) := by
  rw [fetchWithRetry_eq_miss op key now cache hmiss]
  cases h0 : op 0 with
  | ok v =>
    rw [fetchMiss_of_loop_ok op key now cache _ v (fetchLoop_ok0 op v h0) rfl]
    refine ⟨by norm_num, by rfl, ?_, ?_, ?_, ?_⟩
    · intro v2 hv2
      cases hv2
      rfl
    · intro e0 v2 he0 _
      simp at he0
    · intro e0 e1 v2 he0 _ _
      simp at he0
    · intro e0 e1 e2 he0 _ _
      simp at he0
  | error e =>
    cases h1 : op 1 with
    | ok v =>
      rw [fetchMiss_of_loop_ok op key now cache _ v (fetchLoop_e0_ok1 op e v h0 h1) rfl]
      refine ⟨by norm_num, by rfl, ?_, ?_, ?_, ?_⟩
      · intro v2 hv2
        simp at hv2
      · intro e0 v2 _ hv2
        cases hv2
        rfl
      · intro e0 e1 v2 _ he1 _
        simp at he1
      · intro e0 e1 e2 _ he1 _
        simp at he1
    | error e1 =>
      cases h2 : op 2 with
      | ok v =>
        have hl : fetchLoop op 0 2 =
            { result := Except.ok v, attempts := 3, delays := [1000, 2000] } := by
          rw [fetchLoop_e0_e1 op e e1 h0 h1, h2]
        rw [fetchMiss_of_loop_ok op key now cache _ v hl rfl]
        refine ⟨by norm_num, by rfl, ?_, ?_, ?_, ?_⟩
        · intro v2 hv2
          simp at hv2
        · intro e0 v2 _ hv2
          simp at hv2
        · intro e0 e1b v2 _ _ hv2
          cases hv2
          rfl
        · intro e0 e1b e2 _ _ he2
          simp at he2
      | error e2 =>
        have hl : fetchLoop op 0 2 =
            { result := Except.error e2, attempts := 3, delays := [1000, 2000] } := by
          rw [fetchLoop_e0_e1 op e e1 h0 h1, h2]
        rw [fetchMiss_of_loop_error op key now cache _ e2 hl rfl]
        refine ⟨by norm_num, by rfl, ?_, ?_, ?_, ?_⟩
        · intro v2 hv2
          simp at hv2
        · intro e0 v2 _ hv2
          simp at hv2
        · intro e0 e1b v2 _ _ hv2
          simp at hv2
        · intro e0 e1b e2b _ _ he2
          cases he2
          rfl

/-- Witness for C2: an operation failing twice then succeeding runs exactly
3 attempts with delays 1000 and 2000 ms and caches the success. -/
theorem C2_fetch_with_retry_witness :
    fetchWithRetry
        (fun i => if i = 0 then Except.error "boom" else
          if i = 1 then Except.error "boom" else (Except.ok 9 : Except String Nat))
        ("k") 0 [] =
      ({ result := Except.ok 9, attempts := 3, delays := [1000, 2000] }, [("k", 9, 0)]) :=
  (C2_fetch_with_retry
      (fun i => if i = 0 then Except.error "boom" else
        if i = 1 then Except.error "boom" else (Except.ok 9 : Except String Nat))
      ("k") 0 [] rfl).2.2.2.2.1 "boom" "boom" 9 rfl rfl rfl

theorem fetchMiss_fst {E A : Type} (op : Nat → Except E A) (key : String) (now : Int)
    (cache : Cache A) :
    (fetchMiss op key now cache).1 = fetchLoop op 0 2 := by
  unfold fetchMiss
  have hra : retryAttempts - 1 = 2 := rfl
  rw [hra]
  cases hres : (fetchLoop op 0 2).result <;> simp [hres]

/-- C4: after a first fetchWithRetry call that misses the cache and whose
operation succeeds immediately, a second call with the identical request key
within the TTL (now2 - now1 < cacheTimeout) returns the cached value with
zero further invocations of the operation (one invocation across the two
calls) and leaves the cache unchanged; when now2 - now1 >= cacheTimeout the
entry is treated as absent and the second call runs the retry loop (at least
one fresh invocation). -/
theorem C4_cache_hit_within_ttl {E A : Type} (op1 op2 : Nat → Except E A) (key : String)
    (now1 now2 : Int) (cache : Cache A) (v : A)
    (hmiss : cachedFresh cache key now1 = none) (h0 : op1 0 = Except.ok v) :
    (fetchWithRetry op1 key now1 cache).1.attempts = 1 ∧
    (fetchWithRetry op1 key now1 cache).1.result = Except.ok v ∧
    (now2 - now1 < cacheTimeout →
      fetchWithRetry op2 key now2 (fetchWithRetry op1 key now1 cache).2 =
        ({ result := Except.ok v, attempts := 0, delays := [] },
          (fetchWithRetry op1 key now1 cache).2)) ∧
    (cacheTimeout ≤ now2 - now1 →
      fetchWithRetry op2 key now2 (fetchWithRetry op1 key now1 cache).2 =
        fetchMiss op2 key now2 (fetchWithRetry op1 key now1 cache).2 ∧
      1 ≤ (fetchMiss op2 key now2 (fetchWithRetry op1 key now1 cache).2).1.attempts) := by
  have h1 : fetchWithRetry op1 key now1 cache =
      ({ result := Except.ok v, attempts := 1, delays := [] }, cacheSet cache key v now1) := by
    rw [fetchWithRetry_eq_miss op1 key now1 cache hmiss,
      fetchMiss_of_loop_ok op1 key now1 cache _ v (fetchLoop_ok0 op1 v h0) rfl]
  rw [h1]
  have hlook : cacheLookup (cacheSet cache key v now1) key = some (v, now1) := by
    simp [cacheLookup, cacheSet]
  refine ⟨rfl, rfl, ?_, ?_⟩
  · intro ht
    exact fetchWithRetry_eq_hit op2 key now2 _ v (by simp [cachedFresh, hlook, ht])
  · intro ht
    have hstale : cachedFresh (cacheSet cache key v now1) key now2 = none := by
      simp only [cachedFresh, hlook, ite_eq_right_iff, not_lt]
      intro hc
      exact absurd hc (not_lt.mpr ht)
    refine ⟨fetchWithRetry_eq_miss op2 key now2 _ hstale, ?_⟩
    rw [fetchMiss_fst]
    exact fetchLoop_attempts_pos op2 0 2

/-- Witness for C4: a concrete first call at time 0 and second call at time 1
with the same key; the second call performs zero invocations. -/
theorem C4_cache_hit_within_ttl_witness :
    (fetchWithRetry (fun _ => (Except.ok 7 : Except String Nat)) ("k") 0 []).1.attempts = 1 ∧
    fetchWithRetry (fun _ => (Except.error "down" : Except String Nat)) ("k") 1
        (fetchWithRetry (fun _ => (Except.ok 7 : Except String Nat)) ("k") 0 []).2 =
      ({ result := Except.ok 7, attempts := 0, delays := [] },
        (fetchWithRetry (fun _ => (Except.ok 7 : Except String Nat)) ("k") 0 []).2) := by
  have h := C4_cache_hit_within_ttl (fun _ => (Except.ok 7 : Except String Nat))
    (fun _ => (Except.error "down" : Except String Nat)) ("k") 0 1 [] 7 rfl rfl
  exact ⟨h.1, h.2.2.1 (by decide)⟩

/-! ## Balance timeline lemmas -/

theorem fwdStep_revStep (b : Int) (tx : Transaction) : fwdStep (revStep b tx) tx = b := by
  unfold fwdStep revStep
  by_cases h : tx.type = TxType.incoming <;> simp [h]

theorem foldl_fwd_revBalance (l : List Transaction) (c : Int) :
    List.foldl fwdStep (revBalance c l) l = c := by
  induction l with
  | nil => rfl
  | cons tx rest ih =>
    simp only [revBalance, List.foldr_cons, List.foldl_cons] at ih ⊢
    rw [fwdStep_revStep]
    exact ih

theorem dataPoints_head_balance (txs : List Transaction) (current now : Int)
    (h : txs ≠ []) :
    ((dataPoints txs current now).head?.map (fun p => p.balance)) =
      some (max 0 (revBalance current (sortTxsByTick txs))) := by
  cases hs : sortTxsByTick txs with
  | nil =>
    have hs2 : sortAscBy (fun tx => tx.tick) txs = [] := hs
    exact absurd ((sortAscBy_eq_nil_iff (fun tx => tx.tick) txs).mp hs2) h
  | cons tx0 rest =>
    unfold dataPoints samplePoints
    rw [hs]
    simp only [List.length_cons, List.range_succ_eq_map, List.filterMap_cons,
      List.getElem?_cons_zero, Nat.zero_mod, List.drop_zero, List.cons_append,
      List.head?_cons, Option.map_some, true_or, if_true]
    rfl

/-- C1 (amended): the backward walk on unclamped balances is an exact inverse
of forward application: replaying the sorted transactions forward from the
fully reversed balance always reproduces the current balance; and whenever
the fully reversed balance is non-negative (so that the Math.max(0, _) clamp
of the source is inactive on the earliest point), the earliest point of the
reconstructed dataPoints carries exactly that balance and replaying forward
from it reproduces the current balance. -/
theorem C1_timeline_roundtrip (txs : List Transaction) (current now : Int)
    (h : txs ≠ []) (hnn : 0 ≤ revBalance current (sortTxsByTick txs)) :
    List.foldl fwdStep (revBalance current (sortTxsByTick txs)) (sortTxsByTick txs) = current ∧
    ∃ b0, ((dataPoints txs current now).head?.map (fun p => p.balance)) = some b0 ∧
      b0 = revBalance current (sortTxsByTick txs) ∧
      List.foldl fwdStep b0 (sortTxsByTick txs) = current := by
  refine ⟨foldl_fwd_revBalance _ _, max 0 (revBalance current (sortTxsByTick txs)),
    dataPoints_head_balance txs current now h, max_eq_right hnn, ?_⟩
  rw [max_eq_right hnn]
  exact foldl_fwd_revBalance _ _

/-- The transaction of the C1 counterexample: one incoming transfer of 10 at
tick 1, against a current balance of 0. -/
def cexTx : Transaction :=
  { id := "t1", sourceId := "S", destId := "D", amount := 10, tick := 1,
    timestamp := "Tick 1", type := TxType.incoming, moneyFlew := true }

/-- Counterexample to C1 as stated: with one incoming transaction of 10 and
current balance 0, the earliest reconstructed point is clamped to balance 0,
and replaying forward from it yields 10, not the current balance 0. -/
theorem C1_timeline_roundtrip_counterexample :
    (calculateRealBalanceTimeline [cexTx] 0 0).balances.head? = some 0 ∧
    List.foldl fwdStep 0 (sortTxsByTick [cexTx]) = 10 ∧ (10 : Int) ≠ 0 := by
  refine ⟨by decide, by decide, by decide⟩

/-- The transaction of the C1 witness: one outgoing transfer of 3 at tick 1,
against a current balance of 5 (reversal gives 8, replay returns 5). -/
def rtTx : Transaction :=
  { id := "t2", sourceId := "S", destId := "D", amount := 3, tick := 1,
    timestamp := "Tick 1", type := TxType.outgoing, moneyFlew := true }

/-- Witness for the amended C1 at a concrete input. -/
theorem C1_timeline_roundtrip_witness :
    List.foldl fwdStep (revBalance 5 (sortTxsByTick [rtTx])) (sortTxsByTick [rtTx]) = 5 :=
  (C1_timeline_roundtrip [rtTx] 5 0 (by simp) (by decide)).1

/-- Counterexample to C7 as stated: calculateConcentrationRisk sorts
this.assets in place (Array.prototype.sort mutates), so a snapshot whose
assets are not already in descending amount order has its asset list
reordered by the call. -/
theorem C7_frame_counterexample :
    (calculateConcentrationRiskS (setData 0 [] [⟨"A", 1⟩, ⟨"B", 2⟩])).2 ≠
      setData 0 [] [⟨"A", 1⟩, ⟨"B", 2⟩] := by
  decide

/-- C7 (amended): every analytics operation leaves the transaction list and
the balance unchanged and preserves the multiset of assets; the asset list
itself is left unchanged by calculateAssetPerformance, while
calculateConcentrationRisk and getAnalyticsSummary may reorder it in place
(descending by amount) without adding, dropping or modifying any element. -/
theorem C7_frame_effects (st : AnalyticsState) (now : Int) :
    (calculateConcentrationRiskS st).2.transactions = st.transactions ∧
    (calculateConcentrationRiskS st).2.portfolioBalance = st.portfolioBalance ∧
    ((calculateConcentrationRiskS st).2.assets).Perm st.assets ∧
    (calculateConcentrationRiskS st).2.assets = sortAssetsDesc st.assets ∧
    (calculateAssetPerformanceS st).2 = st ∧
    (getAnalyticsSummaryS st now).2.transactions = st.transactions ∧
    (getAnalyticsSummaryS st now).2.portfolioBalance = st.portfolioBalance ∧
    ((getAnalyticsSummaryS st now).2.assets).Perm st.assets := by
  refine ⟨rfl, rfl, perm_sortDescBy _ _, rfl, rfl, rfl, rfl, ?_⟩
  show (sortAssetsDesc (sortAssetsDesc st.assets)).Perm st.assets
  exact (perm_sortDescBy _ _).trans (perm_sortDescBy _ _)

/-- Shifting the date of a timeline point (balance and tick untouched). -/
def shiftDate (n : Int) (p : TimelinePoint) : TimelinePoint :=
  { p with date := n + p.date }

theorem samplePoints_shift (sorted : List Transaction) (current : Int) (now : Int) :
    samplePoints sorted current now = (samplePoints sorted current 0).map (shiftDate now) := by
  unfold samplePoints
  rw [List.map_filterMap]
  apply List.filterMap_congr
  intro i _
  cases hget : sorted[i]? with
  | none => rfl
  | some tx =>
    dsimp only
    by_cases hc : i % 5 = 0 ∨ (current : ℚ) * (1 / 10) < |(tx.amount : ℚ)|
    · rw [if_pos hc, if_pos hc]
      simp only [Option.map_some', shiftDate, Option.some.injEq, TimelinePoint.mk.injEq,
        eq_self_iff_true, true_and, and_true]
      omega
    · rw [if_neg hc, if_neg hc]
      rfl

theorem dataPoints_shift (txs : List Transaction) (current : Int) (now : Int) :
    dataPoints txs current now = (dataPoints txs current 0).map (shiftDate now) := by
  unfold dataPoints
  dsimp only
  rw [List.map_append, samplePoints_shift (sortTxsByTick txs) current now]
  congr 1
  simp [shiftDate]

theorem timeline_time_indep (txs : List Transaction) (bal : Int) (n1 n2 : Int) :
    (calculateRealBalanceTimeline txs bal n1).balances =
      (calculateRealBalanceTimeline txs bal n2).balances ∧
    (calculateRealBalanceTimeline txs bal n1).ticks =
      (calculateRealBalanceTimeline txs bal n2).ticks := by
  unfold calculateRealBalanceTimeline
  by_cases h : txs = []
  · simp [h]
  · simp only [h, if_false]
    rw [dataPoints_shift txs bal n1, dataPoints_shift txs bal n2]
    have hb : ∀ n : Int, ((fun p : TimelinePoint => p.balance) ∘ shiftDate n) =
        (fun p : TimelinePoint => p.balance) := fun _ => rfl
    have ht : ∀ n : Int, ((fun p : TimelinePoint => p.tick) ∘ shiftDate n) =
        (fun p : TimelinePoint => p.tick) := fun _ => rfl
    constructor <;>
      simp only [List.map_drop, List.map_map, List.length_map, hb, ht]

/-- The summary with the wall-clock-derived timeline labels erased. -/
def summaryDropLabels (s : AnalyticsSummary) : AnalyticsSummary :=
  { s with timeline := { s.timeline with labels := [] } }

/-- C8 (amended): getAnalyticsSummary is a deterministic function of the
snapshot and the invocation time, and every component of the summary except
the timeline labels (the toLocaleDateString renderings of the synthetic
point dates) is independent of the invocation time; the state effect is
time-independent as well. -/
theorem C8_summary_deterministic (st : AnalyticsState) (n1 n2 : Int) :
    summaryDropLabels (getAnalyticsSummaryS st n1).1 =
      summaryDropLabels (getAnalyticsSummaryS st n2).1 ∧
    (getAnalyticsSummaryS st n1).2 = (getAnalyticsSummaryS st n2).2 := by
  refine ⟨?_, rfl⟩
  simp only [summaryDropLabels, getAnalyticsSummaryS, AnalyticsSummary.mk.injEq]
  refine ⟨by trivial, by trivial, by trivial, by trivial, by trivial, by trivial, ?_⟩
  have h := timeline_time_indep
    (generateInsightsS (calculateConcentrationRiskS st).2).2.transactions
    (generateInsightsS (calculateConcentrationRiskS st).2).2.portfolioBalance n1 n2
  simp only [Timeline.mk.injEq]
  exact ⟨by trivial, h.1, h.2⟩

/-- Counterexample to C8 as stated: the timeline labels come from Date.now(),
so the same snapshot summarized at two different wall-clock times (here 0 ms
and 432000000 ms, five days later) yields different AnalyticsSummary
values. -/
theorem C8_summary_counterexample :
    (getAnalyticsSummaryS (setData 0 [cexTx] []) 0).1 ≠
      (getAnalyticsSummaryS (setData 0 [cexTx] []) 432000000).1 :=
  fun hq => absurd (congrArg (fun s => s.timeline.labels) hq) (by decide)

/-- C9 (amended): for every positive limit, getTransactions returns exactly
the first limit transactions of the flattened payload stream (hence at most
limit of them) and extending the payload after the cap is reached does not
change the result (early stop); a transaction is marked incoming iff the
upstream destId field equals the queried identifier, which coincides with
comparing the stored destId whenever the identifier is not the sentinel
Unknown. -/
theorem C9_get_transactions (wallet : String) (limit : Nat) (payload : List TickData)
    (h : 1 ≤ limit) :
    (getTransactions wallet limit payload).length ≤ limit ∧
    getTransactions wallet limit payload = (flattenPayload wallet 0 payload).take limit ∧
    (∀ t i raw, (rawToTx wallet t i raw).type = TxType.incoming ↔ raw.destId = some wallet) ∧
    (wallet ≠ "Unknown" → ∀ tx ∈ getTransactions wallet limit payload,
      (tx.type = TxType.incoming ↔ tx.destId = wallet)) ∧
    (∀ extra, limit ≤ (getTransactions wallet limit payload).length →
      getTransactions wallet limit (payload ++ extra) = getTransactions wallet limit payload) := by
  have htake := getTransactions_take wallet limit payload h
  refine ⟨?_, htake, rawToTx_type_iff wallet, ?_, ?_⟩
  · rw [htake]
    exact List.length_take_le limit _
  · intro hw tx htx
    rw [htake] at htx
    have htx2 : tx ∈ flattenPayload wallet 0 payload := List.take_subset _ _ htx
    obtain ⟨t, i, raw, rfl⟩ := mem_flattenPayload wallet 0 payload tx htx2
    rw [rawToTx_type_iff wallet]
    cases hdest : raw.destId with
    | none =>
      constructor
      · intro hc; simp at hc
      · intro hc
        have : (rawToTx wallet t i raw).destId = "Unknown" := by
          unfold rawToTx
          rw [hdest]
          rfl
        rw [this] at hc
        exact absurd hc.symm hw
    | some d =>
      have hstored : (rawToTx wallet t i raw).destId = d := by
        unfold rawToTx
        rw [hdest]
        rfl
      rw [hstored]
      simp
  · intro extra hlen
    rw [htake] at hlen ⊢
    rw [List.length_take] at hlen
    have hflen : limit ≤ (flattenPayload wallet 0 payload).length := by omega
    rw [getTransactions_take wallet limit (payload ++ extra) h, flattenPayload_append,
      List.take_append_eq_append_take]
    have hz : limit - (flattenPayload wallet 0 payload).length = 0 := by omega
    rw [hz]
    simp

/-- The payload of the C9 counterexample: one tick batch with one raw
transaction all of whose fields are missing. -/
def cexPayload : List TickData :=
  [{ tickNumber := some 5,
     transactions := [{ id := none, sourceId := none, destId := none,
                        amount := none, moneyFlew := none }] }]

/-- Counterexample to C9 as stated: with limit 0 the length check runs only
after the first push, so one transaction is returned (more than limit); and
with the queried identifier equal to the sentinel Unknown, that transaction
has destId equal to the identifier yet is marked outgoing. -/
theorem C9_get_transactions_counterexample :
    (getTransactions ("Unknown") 0 cexPayload).length = 1 ∧
    ¬((getTransactions ("Unknown") 0 cexPayload).length ≤ 0) ∧
    ∃ tx ∈ getTransactions ("Unknown") 0 cexPayload,
      tx.destId = "Unknown" ∧ tx.type = TxType.outgoing := by
  refine ⟨by decide, by decide, by decide⟩

/-- Witness for the amended C9 at a concrete input. -/
theorem C9_get_transactions_witness :
    (getTransactions ("W") 1 cexPayload).length ≤ 1 :=
  (C9_get_transactions ("W") 1 cexPayload (by decide)).1

theorem mem_bumpCounter (l : List (String × Nat)) (k : String) (q : String × Nat)
    (hq : q ∈ bumpCounter l k) : (q.1 = k ∧ 0 < q.2) ∨ q ∈ l := by
  induction l with
  | nil =>
    simp only [bumpCounter, List.mem_singleton] at hq
    subst hq
    exact Or.inl ⟨rfl, Nat.one_pos⟩
  | cons hd tl ih =>
    obtain ⟨k2, n⟩ := hd
    unfold bumpCounter at hq
    by_cases hk : k2 = k
    · rw [if_pos hk] at hq
      rcases List.mem_cons.mp hq with hq | hq
      · subst hq
        exact Or.inl ⟨hk, Nat.succ_pos n⟩
      · exact Or.inr (List.mem_cons_of_mem _ hq)
    · rw [if_neg hk] at hq
      rcases List.mem_cons.mp hq with hq | hq
      · subst hq
        exact Or.inr (List.mem_cons_self ..)
      · rcases ih hq with h2 | h2
        · exact Or.inl h2
        · exact Or.inr (List.mem_cons_of_mem _ h2)

theorem countCounterparties_inv (txs : List Transaction) :
    ∀ p ∈ countCounterparties txs, p.1 ≠ "" ∧ p.1 ≠ "Unknown" ∧ 0 < p.2 := by
  have main : ∀ (l : List Transaction) (acc : List (String × Nat)),
      (∀ p ∈ acc, p.1 ≠ "" ∧ p.1 ≠ "Unknown" ∧ 0 < p.2) →
      ∀ p ∈ l.foldl
        (fun acc tx =>
          let c := counterpartyOf tx
          if c ≠ "" ∧ c ≠ "Unknown" then bumpCounter acc c else acc)
        acc,
        p.1 ≠ "" ∧ p.1 ≠ "Unknown" ∧ 0 < p.2 := by
    intro l
    induction l with
    | nil => intro acc hacc p hp; exact hacc p hp
    | cons tx rest ih =>
      intro acc hacc p hp
      simp only [List.foldl_cons] at hp
      refine ih _ ?_ p hp
      intro q hq
      by_cases hc : counterpartyOf tx ≠ "" ∧ counterpartyOf tx ≠ "Unknown"
      · rw [if_pos hc] at hq
        rcases mem_bumpCounter acc (counterpartyOf tx) q hq with h2 | h2
        · exact ⟨h2.1 ▸ hc.1, h2.1 ▸ hc.2, h2.2⟩
        · exact hacc q h2
      · rw [if_neg hc] at hq
        exact hacc q hq
  exact main txs [] (by simp)

/-- C10: for every transaction list, topCounterparties has at most 5
entries, is sorted by descending transaction count, and every entry comes
from a counterparty key that is neither missing (empty) nor the sentinel
Unknown, shown truncated, with a positive count. -/
theorem C10_top_counterparties (txs : List Transaction) :
    (analyzeTransactionPatterns txs).topCounterparties.length ≤ 5 ∧
    (analyzeTransactionPatterns txs).topCounterparties.Pairwise
      (fun a b => b.transactions ≤ a.transactions) ∧
    ∀ e ∈ (analyzeTransactionPatterns txs).topCounterparties,
      ∃ k, k ≠ "" ∧ k ≠ "Unknown" ∧ e.address = truncateAddress k ∧ 0 < e.transactions := by
  by_cases h : txs = []
  · simp [analyzeTransactionPatterns, h]
  · rw [(patterns_fields txs h).2.2]
    refine ⟨?_, ?_, ?_⟩
    · rw [List.length_map]
      exact List.length_take_le 5 _
    · rw [List.pairwise_map]
      exact List.Pairwise.sublist (List.take_sublist 5 _)
        (pairwise_sortDescBy (fun p => p.2) (countCounterparties txs))
    · intro e he
      rcases List.mem_map.mp he with ⟨p, hp, rfl⟩
      have hp2 : p ∈ sortDescBy (fun p => p.2) (countCounterparties txs) :=
        List.take_subset _ _ hp
      have hp3 : p ∈ countCounterparties txs := (perm_sortDescBy _ _).mem_iff.mp hp2
      have hinv := countCounterparties_inv txs p hp3
      exact ⟨p.1, hinv.1, hinv.2.1, rfl, hinv.2.2⟩

/-- The transaction of the C10 witness: one incoming transfer from a real
14-character counterparty address. -/
def cpTx : Transaction :=
  { id := "t3", sourceId := "ABCDEFGHIJKLMN", destId := "D", amount := 1, tick := 1,
    timestamp := "Tick 1", type := TxType.incoming, moneyFlew := true }

/-- Witness for C10 at a concrete input: the single top counterparty entry
is a truncation of a non-sentinel key with positive count. -/
theorem C10_top_counterparties_witness :
    ∃ k, k ≠ "" ∧ k ≠ "Unknown" ∧
      (Counterparty.mk ("ABCDEFGH...IJKLMN") 1).address = truncateAddress k ∧
      0 < (Counterparty.mk ("ABCDEFGH...IJKLMN") 1).transactions :=
  (C10_top_counterparties [cpTx]).2.2 (Counterparty.mk ("ABCDEFGH...IJKLMN") 1) (by decide)
